import Mathlib

/-!
Verification of the featherPD placement-driver core against its design
specification.  The development shallowly embeds the two source files:

* `src/error.rs` — the error taxonomy (`Error`), its `Display` rendering,
  and the codec between `Error` and the transport status
  (`impl From<Error> for tonic::Status` / `impl From<tonic::Status> for Error`);
* `src/server.rs` — the timestamp oracle (`FeatherPD::new`,
  `FeatherPD::get_next_ts`).

Rust strings are modelled as `List Char`; `u64` arithmetic is `Nat`
arithmetic reduced modulo `2 ^ 64` where the source increments the counter.
-/

namespace Feather

/-- Rust string contents, modelled as a list of characters. -/
abbrev Str := List Char

/-! ## The error taxonomy (src/error.rs, `enum Error`) -/

/-- The `Error` enum of `src/error.rs`: eight kinds, four of which carry an
associated descriptive string. -/
inductive Error where
  | Abort
  | Config (s : Str)
  | Internal (s : Str)
  | Parse (s : Str)
  | ReadOnly
  | Serialization
  | Value (s : Str)
  | NotLeader
deriving DecidableEq

/-- The `Display` impl of `src/error.rs`: string-carrying kinds print their
associated string; the string-less kinds print a fixed phrase. -/
def Error.display : Error → Str
  | .Config s | .Internal s | .Parse s | .Value s => s
  | .Abort => "Operation aborted".toList
  | .Serialization => "Serialization failure, retry transaction".toList
  | .ReadOnly => "Read-only transaction".toList
  | .NotLeader => "Not leader".toList

/-- The transport status code carried by `tonic::Status`.  The codec in the
source only ever constructs the generic `internal` failure code; the other
representative codes exist in the transport but are unused by the encoder. -/
inductive StatusCode where
  | ok
  | internal
  | unknown
  | notFound
deriving DecidableEq

/-- A `tonic::Status`: a numeric status code plus a message string. -/
structure Status where
  code : StatusCode
  message : Str
deriving DecidableEq

/-- Constructor mirroring `tonic::Status::internal(msg)`. -/
def Status.mkInternal (msg : Str) : Status := ⟨.internal, msg⟩

/-- The encoder `impl From<Error> for tonic::Status` of `src/error.rs`:
composes the bracketed-tag message for each kind and wraps it with
`tonic::Status::internal`. -/
def errorToStatus (err : Error) : Status :=
  let msg : Str :=
    match err with
    | .Config s => "[Config] ".toList ++ s
    | .Internal s => "[Internal] ".toList ++ s
    | .Parse s => "[Parse] ".toList ++ s
    | .Value s => "[Value] ".toList ++ s
    | .Abort => "[Abort] Operation aborted".toList
    | .ReadOnly => "[ReadOnly] Read-only transaction".toList
    | .Serialization => "[Serialization] Serialization failure, retry transaction".toList
    | .NotLeader => "[NotLeader] Not leader".toList
  Status.mkInternal msg

/-! ## String splitting and joining

Rust's `str::split(" ")` splits on every occurrence of the single separator
and keeps empty substrings between consecutive separators; `Vec::join(" ")`
intercalates the separator.  Both are modelled directly on `List Char`. -/

/-- Prepends a character to the first chunk of a chunk list (used by
`splitOnChar` when the character is not the separator). -/
def consHead (c : Char) : List Str → List Str
  | [] => [[c]]
  | r :: rs => (c :: r) :: rs

/-- Rust `s.split(sep)` for a one-character separator: always returns at
least one (possibly empty) chunk, and keeps empty chunks arising from
consecutive separators. -/
def splitOnChar (sep : Char) : Str → List Str
  | [] => [[]]
  | c :: cs =>
    if c = sep then [] :: splitOnChar sep cs
    else consHead c (splitOnChar sep cs)

/-- Rust `chunks.join(sep)` for a one-character separator. -/
def joinChar (sep : Char) : List Str → Str
  | [] => []
  | [x] => x
  | x :: xs => x ++ sep :: joinChar sep xs

/-! ## Rust's `Debug` rendering of a string (used by `format!("{:?}", …)`)

The decoder's fallback arm formats the raw message with `{:?}`, which quotes
the string and escapes quotes, backslashes and control characters
(`char::escape_debug`, with the single quote left unescaped inside a string
literal).  Printable characters pass through unchanged; for characters
beyond ASCII the (unicode-printability) pass-through is approximated by
ASCII printability, which is exact on every ASCII message. -/

/-- Debug-escaping of one character inside a double-quoted string literal. -/
def escapeDebugChar (c : Char) : Str :=
  if c = '"' then ['\\', '"']
  else if c = '\\' then ['\\', '\\']
  else if c = '\n' then ['\\', 'n']
  else if c = '\r' then ['\\', 'r']
  else if c = '\t' then ['\\', 't']
  else if c.toNat < 0x20 ∨ c.toNat = 0x7f then
    '\\' :: 'u' :: '\x7b' :: Nat.toDigits 16 c.toNat ++ ['\x7d']
  else [c]

/-- Debug-escaping of a whole string (the escapes of its characters,
concatenated). -/
def escapeDebug : Str → Str
  | [] => []
  | c :: cs => escapeDebugChar c ++ escapeDebug cs

/-- The message of the decoder's fallback arm:
`format!("Unknown error type: {:?}", err.message())`. -/
def unknownErrorMsg (m : Str) : Str :=
  "Unknown error type: ".toList ++ '"' :: escapeDebug m ++ ['"']

/-- The dispatch of the decoder's `match chunks[0]` in `src/error.rs`:
compares the first chunk `c0` against the eight bracketed tags; the
string-carrying kinds rejoin the remaining chunks `rest` (= `chunks[1..]`)
with single spaces, and the fallback arm formats the whole raw message. -/
def tagDispatch (c0 : Str) (rest : List Str) (msg : Str) : Error :=
  if c0 = "[Config]".toList then .Config (joinChar ' ' rest)
  else if c0 = "[Internal]".toList then .Internal (joinChar ' ' rest)
  else if c0 = "[Parse]".toList then .Parse (joinChar ' ' rest)
  else if c0 = "[Value]".toList then .Value (joinChar ' ' rest)
  else if c0 = "[Abort]".toList then .Abort
  else if c0 = "[ReadOnly]".toList then .ReadOnly
  else if c0 = "[Serialization]".toList then .Serialization
  else if c0 = "[NotLeader]".toList then .NotLeader
  else .Internal (unknownErrorMsg msg)

/-- The decoder `impl From<tonic::Status> for Error` of `src/error.rs`:
splits the message on the single-space separator and dispatches on the
first chunk.  `chunks.headI` is Rust's `chunks[0]` (safe: the split is
never empty) and `chunks.tail` is `chunks[1..]`. -/
def statusToError (st : Status) : Error :=
  let chunks := splitOnChar ' ' st.message
  tagDispatch chunks.headI chunks.tail st.message

/-! ## The timestamp oracle (src/server.rs) -/

/-- `2 ^ 64`, the modulus of `u64` arithmetic. -/
def U64 : Nat := 2 ^ 64

/-- The state of `Mutex<u64>`: either healthy or poisoned (a previous
holder panicked while holding the lock); either way it stores the counter. -/
inductive MutexState where
  | ok (v : Nat)
  | poisoned (v : Nat)
deriving DecidableEq

/-- `std::sync::PoisonError`: returned by `Mutex::lock` on a poisoned
mutex, carrying the guard. -/
structure PoisonErr where
  v : Nat
deriving DecidableEq

/-- `Mutex::lock`: yields the guarded value, or a `PoisonError` when the
mutex is poisoned. -/
def MutexState.lock : MutexState → Except PoisonErr Nat
  | .ok v => .ok v
  | .poisoned v => .error ⟨v⟩

/-- Observable outcome of calling a Rust function: a returned value, a
panic, or (hypothetically, as the specification describes for the poisoned
case) an error value surfaced to the caller. -/
inductive Outcome (α : Type) where
  | returned (a : α)
  | panicked
  | errored (e : Error)
deriving DecidableEq

/-- The `FeatherPD` server struct: its only field is the mutex-guarded
next-timestamp counter. -/
structure FeatherPD where
  next_ts : MutexState
deriving DecidableEq

/-- `FeatherPD::new()`: counter initialized to 0 (the source wraps this in
`Ok(…)`, which never fails). -/
def FeatherPD.new : FeatherPD := ⟨.ok 0⟩

/-- `FeatherPD::get_next_ts`: `self.next_ts.lock().unwrap()` followed by
`*next_ts += 1` and returning the new value.  `unwrap()` panics when the
lock is poisoned; the increment is `u64` arithmetic, hence modulo `2 ^ 64`. -/
def FeatherPD.get_next_ts (pd : FeatherPD) : Outcome (Nat × FeatherPD) :=
  match pd.next_ts.lock with
  | .error _ => .panicked
  | .ok v =>
    let v2 := (v + 1) % U64
    .returned (v2, ⟨.ok v2⟩)

/-- Runs `n` successive calls to `get_next_ts`, collecting the returned
values in order; a panic ends the sequence. -/
def runCalls : Nat → FeatherPD → List Nat
  | 0, _ => []
  | n + 1, pd =>
    match pd.get_next_ts with
    | .returned (v, pd2) => v :: runCalls n pd2
    | _ => []

/-- The values returned by `n` successive calls starting from a freshly
created server. -/
def tsSeq (n : Nat) : List Nat := runCalls n FeatherPD.new

/-! ## Auxiliary notions used to state the claims -/

/-- The bracketed tag identifying each error kind in the wire format. -/
def Error.tag : Error → Str
  | .Config _ => "[Config]".toList
  | .Internal _ => "[Internal]".toList
  | .Parse _ => "[Parse]".toList
  | .Value _ => "[Value]".toList
  | .Abort => "[Abort]".toList
  | .ReadOnly => "[ReadOnly]".toList
  | .Serialization => "[Serialization]".toList
  | .NotLeader => "[NotLeader]".toList

/-- Whether a chunk is one of the eight bracketed tags the decoder
recognizes. -/
def recognizedTag (t : Str) : Bool :=
  t = "[Config]".toList || t = "[Internal]".toList || t = "[Parse]".toList ||
  t = "[Value]".toList || t = "[Abort]".toList || t = "[ReadOnly]".toList ||
  t = "[Serialization]".toList || t = "[NotLeader]".toList

/-- A character that Rust's string `Debug` rendering passes through
unchanged: printable ASCII other than the double quote and the backslash. -/
def plainChar (c : Char) : Bool :=
  0x20 ≤ c.toNat && c.toNat < 0x7f && c ≠ '"' && c ≠ '\\'

/-- Whether `pat` occurs at the very start of `l`. -/
def begins : Str → Str → Bool
  | [], _ => true
  | _ :: _, [] => false
  | p :: ps, c :: cs => p = c && begins ps cs

/-- Whether `pat` occurs contiguously anywhere inside `l` (substring
containment). -/
def hasSegment (pat : Str) : Str → Bool
  | [] => begins pat []
  | c :: cs => begins pat (c :: cs) || hasSegment pat cs

/-- An ASCII whitespace character. -/
def isWsChar (c : Char) : Bool :=
  c = ' ' || c = '\t' || c = '\n' || c = '\r'

/-- Accumulator loop for `wsTokens`. -/
def wsTokensAux : Str → Str → List Str
  | [], cur => if cur = [] then [] else [cur.reverse]
  | c :: cs, cur =>
    if isWsChar c then
      if cur = [] then wsTokensAux cs [] else cur.reverse :: wsTokensAux cs []
    else wsTokensAux cs (c :: cur)

/-- The specification's whitespace tokenization (the claims speak of the
"first whitespace-separated token"): splits on runs of whitespace and
discards empty tokens, like Rust's `split_whitespace`.  This is a second
decoder-side reading written from the claim's words, for comparison with
`splitOnChar`, which is what the source actually does. -/
def wsTokens (l : Str) : List Str := wsTokensAux l []

/-- Whether an outcome is "the call returned an `Internal` error value to
its caller" — the behaviour the specification ascribes to `get_next_ts`
under a poisoned lock. -/
def returnsInternal {α : Type} : Outcome α → Bool
  | .errored (.Internal _) => true
  | _ => false

/-! ## Lemmas about splitting and joining -/

theorem splitOnChar_ne_nil (sep : Char) (l : Str) : splitOnChar sep l ≠ [] := by
  cases l with
  | nil => simp [splitOnChar]
  | cons c cs =>
    simp only [splitOnChar]
    split
    · simp
    · cases h : splitOnChar sep cs <;> simp [consHead]

/-- Rust's `split(sep)` followed by `join(sep)` is the identity: the empty
chunks produced by consecutive separators reinstate those separators. -/
theorem joinChar_splitOnChar (sep : Char) (l : Str) :
    joinChar sep (splitOnChar sep l) = l := by
  induction l with
  | nil => rfl
  | cons c cs ih =>
    simp only [splitOnChar]
    by_cases hc : c = sep
    · subst hc
      rw [if_pos rfl]
      cases h : splitOnChar c cs with
      | nil => exact absurd h (splitOnChar_ne_nil c cs)
      | cons r rs =>
        rw [h] at ih
        simp only [joinChar, List.nil_append]
        rw [ih]
    · rw [if_neg hc]
      cases h : splitOnChar sep cs with
      | nil => exact absurd h (splitOnChar_ne_nil sep cs)
      | cons r rs =>
        rw [h] at ih
        simp only [consHead]
        cases rs with
        | nil =>
          simp only [joinChar] at ih ⊢
          rw [ih]
        | cons r2 rs2 =>
          simp only [joinChar] at ih ⊢
          rw [List.cons_append, ih]

/-- Splitting a message that starts with a separator-free chunk followed by
a separator yields that chunk followed by the split of the remainder. -/
theorem splitOnChar_append_cons (sep : Char) (a b : Str) (ha : sep ∉ a) :
    splitOnChar sep (a ++ sep :: b) = a :: splitOnChar sep b := by
  induction a with
  | nil => simp [splitOnChar]
  | cons c a2 ih =>
    have hc : ¬ c = sep := fun h => ha (List.mem_cons.mpr (Or.inl h.symm))
    have ha2 : sep ∉ a2 := fun h => ha (List.mem_cons.mpr (Or.inr h))
    show splitOnChar sep (c :: (a2 ++ sep :: b)) = (c :: a2) :: splitOnChar sep b
    rw [splitOnChar, if_neg hc, ih ha2, consHead]

/-! ## Lemmas about the decoder on tagged messages -/

theorem tagDispatch_config (rest : List Str) (msg : Str) :
    tagDispatch "[Config]".toList rest msg = Error.Config (joinChar ' ' rest) := by
  rw [tagDispatch, if_pos rfl]

theorem tagDispatch_internal (rest : List Str) (msg : Str) :
    tagDispatch "[Internal]".toList rest msg = Error.Internal (joinChar ' ' rest) := by
  rw [tagDispatch, if_neg (by decide), if_pos rfl]

theorem tagDispatch_parse (rest : List Str) (msg : Str) :
    tagDispatch "[Parse]".toList rest msg = Error.Parse (joinChar ' ' rest) := by
  rw [tagDispatch, if_neg (by decide), if_neg (by decide), if_pos rfl]

theorem tagDispatch_value (rest : List Str) (msg : Str) :
    tagDispatch "[Value]".toList rest msg = Error.Value (joinChar ' ' rest) := by
  rw [tagDispatch, if_neg (by decide), if_neg (by decide), if_neg (by decide), if_pos rfl]

theorem tagDispatch_abort (rest : List Str) (msg : Str) :
    tagDispatch "[Abort]".toList rest msg = Error.Abort := by
  rw [tagDispatch, if_neg (by decide), if_neg (by decide), if_neg (by decide), if_neg (by decide), if_pos rfl]

theorem tagDispatch_readonly (rest : List Str) (msg : Str) :
    tagDispatch "[ReadOnly]".toList rest msg = Error.ReadOnly := by
  rw [tagDispatch, if_neg (by decide), if_neg (by decide), if_neg (by decide), if_neg (by decide), if_neg (by decide), if_pos rfl]

theorem tagDispatch_serialization (rest : List Str) (msg : Str) :
    tagDispatch "[Serialization]".toList rest msg = Error.Serialization := by
  rw [tagDispatch, if_neg (by decide), if_neg (by decide), if_neg (by decide), if_neg (by decide), if_neg (by decide), if_neg (by decide), if_pos rfl]

theorem tagDispatch_notleader (rest : List Str) (msg : Str) :
    tagDispatch "[NotLeader]".toList rest msg = Error.NotLeader := by
  rw [tagDispatch, if_neg (by decide), if_neg (by decide), if_neg (by decide), if_neg (by decide), if_neg (by decide), if_neg (by decide), if_neg (by decide), if_pos rfl]

theorem decode_config_cons (code : StatusCode) (s : Str) :
    statusToError ⟨code, "[Config]".toList ++ ' ' :: s⟩ = .Config s := by
  show tagDispatch (splitOnChar ' ' ("[Config]".toList ++ ' ' :: s)).headI
      (splitOnChar ' ' ("[Config]".toList ++ ' ' :: s)).tail
      ("[Config]".toList ++ ' ' :: s) = .Config s
  rw [splitOnChar_append_cons ' ' _ s (by decide)]
  exact (tagDispatch_config (splitOnChar ' ' s) _).trans (by rw [joinChar_splitOnChar])

theorem decode_internal_cons (code : StatusCode) (s : Str) :
    statusToError ⟨code, "[Internal]".toList ++ ' ' :: s⟩ = .Internal s := by
  show tagDispatch (splitOnChar ' ' ("[Internal]".toList ++ ' ' :: s)).headI
      (splitOnChar ' ' ("[Internal]".toList ++ ' ' :: s)).tail
      ("[Internal]".toList ++ ' ' :: s) = .Internal s
  rw [splitOnChar_append_cons ' ' _ s (by decide)]
  exact (tagDispatch_internal (splitOnChar ' ' s) _).trans (by rw [joinChar_splitOnChar])

theorem decode_parse_cons (code : StatusCode) (s : Str) :
    statusToError ⟨code, "[Parse]".toList ++ ' ' :: s⟩ = .Parse s := by
  show tagDispatch (splitOnChar ' ' ("[Parse]".toList ++ ' ' :: s)).headI
      (splitOnChar ' ' ("[Parse]".toList ++ ' ' :: s)).tail
      ("[Parse]".toList ++ ' ' :: s) = .Parse s
  rw [splitOnChar_append_cons ' ' _ s (by decide)]
  exact (tagDispatch_parse (splitOnChar ' ' s) _).trans (by rw [joinChar_splitOnChar])

theorem decode_value_cons (code : StatusCode) (s : Str) :
    statusToError ⟨code, "[Value]".toList ++ ' ' :: s⟩ = .Value s := by
  show tagDispatch (splitOnChar ' ' ("[Value]".toList ++ ' ' :: s)).headI
      (splitOnChar ' ' ("[Value]".toList ++ ' ' :: s)).tail
      ("[Value]".toList ++ ' ' :: s) = .Value s
  rw [splitOnChar_append_cons ' ' _ s (by decide)]
  exact (tagDispatch_value (splitOnChar ' ' s) _).trans (by rw [joinChar_splitOnChar])

theorem decode_abort_cons (code : StatusCode) (s : Str) :
    statusToError ⟨code, "[Abort]".toList ++ ' ' :: s⟩ = .Abort := by
  show tagDispatch (splitOnChar ' ' ("[Abort]".toList ++ ' ' :: s)).headI
      (splitOnChar ' ' ("[Abort]".toList ++ ' ' :: s)).tail
      ("[Abort]".toList ++ ' ' :: s) = .Abort
  rw [splitOnChar_append_cons ' ' _ s (by decide)]
  exact tagDispatch_abort (splitOnChar ' ' s) _

theorem decode_readonly_cons (code : StatusCode) (s : Str) :
    statusToError ⟨code, "[ReadOnly]".toList ++ ' ' :: s⟩ = .ReadOnly := by
  show tagDispatch (splitOnChar ' ' ("[ReadOnly]".toList ++ ' ' :: s)).headI
      (splitOnChar ' ' ("[ReadOnly]".toList ++ ' ' :: s)).tail
      ("[ReadOnly]".toList ++ ' ' :: s) = .ReadOnly
  rw [splitOnChar_append_cons ' ' _ s (by decide)]
  exact tagDispatch_readonly (splitOnChar ' ' s) _

theorem decode_serialization_cons (code : StatusCode) (s : Str) :
    statusToError ⟨code, "[Serialization]".toList ++ ' ' :: s⟩ = .Serialization := by
  show tagDispatch (splitOnChar ' ' ("[Serialization]".toList ++ ' ' :: s)).headI
      (splitOnChar ' ' ("[Serialization]".toList ++ ' ' :: s)).tail
      ("[Serialization]".toList ++ ' ' :: s) = .Serialization
  rw [splitOnChar_append_cons ' ' _ s (by decide)]
  exact tagDispatch_serialization (splitOnChar ' ' s) _

theorem decode_notleader_cons (code : StatusCode) (s : Str) :
    statusToError ⟨code, "[NotLeader]".toList ++ ' ' :: s⟩ = .NotLeader := by
  show tagDispatch (splitOnChar ' ' ("[NotLeader]".toList ++ ' ' :: s)).headI
      (splitOnChar ' ' ("[NotLeader]".toList ++ ' ' :: s)).tail
      ("[NotLeader]".toList ++ ' ' :: s) = .NotLeader
  rw [splitOnChar_append_cons ' ' _ s (by decide)]
  exact tagDispatch_notleader (splitOnChar ' ' s) _

/-! ## Lemmas about debug escaping and substring containment -/

/-- A plain character is left unchanged by debug escaping. -/
theorem escapeDebugChar_plain (c : Char) (h : plainChar c = true) :
    escapeDebugChar c = [c] := by
  simp only [plainChar, Bool.and_eq_true, decide_eq_true_eq] at h
  obtain ⟨⟨⟨h1, h2⟩, h3⟩, h4⟩ := h
  rw [escapeDebugChar, if_neg h3, if_neg h4, if_neg ?hn, if_neg ?hr, if_neg ?ht,
    if_neg ?hu]
  case hn => intro hc; subst hc; exact absurd h1 (by decide)
  case hr => intro hc; subst hc; exact absurd h1 (by decide)
  case ht => intro hc; subst hc; exact absurd h1 (by decide)
  case hu => intro hc; omega

/-- A string of plain characters is left unchanged by debug escaping. -/
theorem escapeDebug_plain (m : Str) (h : ∀ c ∈ m, plainChar c = true) :
    escapeDebug m = m := by
  induction m with
  | nil => rfl
  | cons c cs ih =>
    rw [escapeDebug, escapeDebugChar_plain c (h c (List.mem_cons_self c cs)),
      ih fun x hx => h x (List.mem_cons_of_mem c hx)]
    rfl

theorem begins_append (m b : Str) : begins m (m ++ b) = true := by
  induction m with
  | nil => rfl
  | cons c cs ih => simp [begins, ih]

/-- A string occurs as a contiguous segment of any string that embeds it
between a left part and a right part. -/
theorem hasSegment_append (a m b : Str) : hasSegment m (a ++ (m ++ b)) = true := by
  induction a with
  | nil =>
    cases m with
    | nil => cases b <;> simp [hasSegment, begins]
    | cons p ps =>
      show hasSegment (p :: ps) (p :: (ps ++ b)) = true
      rw [hasSegment]
      have : begins (p :: ps) ((p :: ps) ++ b) = true := begins_append (p :: ps) b
      rw [List.cons_append] at this
      rw [this, Bool.true_or]
  | cons c a2 ih =>
    rw [List.cons_append, hasSegment, ih, Bool.or_true]

/-! ## Lemmas about the timestamp oracle -/

/-- The values returned by `n` calls starting from a healthy counter `c`
(stored reduced mod `2 ^ 64`) are `(c+1) % 2^64, …, (c+n) % 2^64`. -/
theorem runCalls_ok (n : Nat) : ∀ c : Nat,
    runCalls n ⟨.ok (c % U64)⟩ = (List.range' (c + 1) n).map (· % U64) := by
  induction n with
  | zero => intro c; rfl
  | succ n ih =>
    intro c
    rw [List.range'_succ, List.map_cons]
    have hmod : (c % U64 + 1) % U64 = (c + 1) % U64 := Nat.mod_add_mod c U64 1
    show (c % U64 + 1) % U64 :: runCalls n ⟨.ok ((c % U64 + 1) % U64)⟩ =
      (c + 1) % U64 :: (List.range' (c + 1 + 1) n).map (· % U64)
    rw [hmod, ih (c + 1)]

/-- The first `n` issued timestamps, as a function of `n`. -/
theorem tsSeq_eq (n : Nat) : tsSeq n = (List.range' 1 n).map (· % U64) := by
  have h0 : FeatherPD.new = ⟨.ok (0 % U64)⟩ := by decide
  rw [tsSeq, h0, runCalls_ok n 0]

/-! ## The claims -/

/-- C1 (amended): when the timestamp oracle's mutex is poisoned, a call to
`get_next_ts` panics (the source unwraps the `lock()` result); it does not
return an `Internal` error — or any error value — to its caller. -/
theorem claim1_poisoned_panics (v : Nat) :
    (FeatherPD.mk (.poisoned v)).get_next_ts = .panicked ∧
    returnsInternal (FeatherPD.mk (.poisoned v)).get_next_ts = false :=
  ⟨rfl, rfl⟩

/-- C1 counterexample: with the lock poisoned (counter 0), `get_next_ts`
panics; its outcome is not a returned `Internal` error, contradicting the
claim that the operation fails with an `Internal` error rather than a
panic. -/
theorem claim1_counterexample :
    (FeatherPD.mk (.poisoned 0)).get_next_ts = .panicked ∧
    returnsInternal (FeatherPD.mk (.poisoned 0)).get_next_ts = false := by
  decide

/-- C2 (amended): for every `N` below `2 ^ 64`, `N` successive calls from a
fresh server return exactly `1, 2, …, N` in order (hence strictly
increasing and duplicate-free); at `N = 2 ^ 64` the `u64` counter wraps. -/
theorem claim2_seq_counts_up (N : Nat) (h : N < 2 ^ 64) :
    tsSeq N = List.range' 1 N := by
  rw [tsSeq_eq]
  have hid : ∀ a ∈ List.range' 1 N, a % U64 = a := by
    intro a ha
    rw [List.mem_range'_1] at ha
    have hU : U64 = 2 ^ 64 := rfl
    exact Nat.mod_eq_of_lt (by omega)
  calc (List.range' 1 N).map (· % U64)
      = (List.range' 1 N).map id := List.map_congr_left hid
    _ = List.range' 1 N := List.map_id _

/-- C2 witness: three successive calls return `1, 2, 3`. -/
theorem claim2_witness : 3 < 2 ^ 64 ∧ tsSeq 3 = List.range' 1 3 :=
  ⟨by decide, claim2_seq_counts_up 3 (by decide)⟩

/-- C2 counterexample: the claim quantifies over every `N`, but at
`N = 2 ^ 64` the `u64` counter wraps to `0`, so the returned sequence is
not `1, …, 2 ^ 64`. -/
theorem claim2_counterexample : tsSeq (2 ^ 64) ≠ List.range' 1 (2 ^ 64) := by
  intro hEq
  have hform := tsSeq_eq (2 ^ 64)
  rw [hEq] at hform
  have hmem : (2 ^ 64 : Nat) ∈ List.range' 1 (2 ^ 64) := by
    rw [List.mem_range'_1]
    exact ⟨by decide, by decide⟩
  rw [hform] at hmem
  obtain ⟨a, _, ha⟩ := List.mem_map.mp hmem
  have hlt : a % U64 < U64 := Nat.mod_lt a (by decide)
  rw [ha] at hlt
  exact absurd hlt (by decide)

/-- C3: the codec round-trips: decoding the transport status produced by
encoding any error value — any kind, any associated string, including the
empty string and strings with embedded (even consecutive) spaces — yields
the original error value. -/
theorem claim3_roundtrip (err : Error) :
    statusToError (errorToStatus err) = err := by
  cases err with
  | Config s => exact decode_config_cons .internal s
  | Internal s => exact decode_internal_cons .internal s
  | Parse s => exact decode_parse_cons .internal s
  | Value s => exact decode_value_cons .internal s
  | Abort => decide
  | ReadOnly => decide
  | Serialization => decide
  | NotLeader => decide

/-- C4 (amended): decoding is total, and a message whose first
space-separated chunk is not a recognized tag decodes to
`Internal ("Unknown error type: " ++ the debug-quoted message)`; the raw
message appears verbatim inside the detail whenever none of its characters
needs debug escaping (no quote, backslash, or control character). -/
theorem claim4_fallback_total (st : Status)
    (h1 : recognizedTag ((splitOnChar ' ' st.message).headI) = false)
    (h2 : ∀ c ∈ st.message, plainChar c = true) :
    statusToError st =
      .Internal ("Unknown error type: ".toList ++ '"' :: st.message ++ ['"']) ∧
    hasSegment st.message
      ("Unknown error type: ".toList ++ '"' :: st.message ++ ['"']) = true := by
  constructor
  · show tagDispatch (splitOnChar ' ' st.message).headI
      (splitOnChar ' ' st.message).tail st.message = _
    simp only [recognizedTag, Bool.or_eq_false_iff, decide_eq_false_iff_not] at h1
    obtain ⟨⟨⟨⟨⟨⟨⟨n1, n2⟩, n3⟩, n4⟩, n5⟩, n6⟩, n7⟩, n8⟩ := h1
    rw [tagDispatch, if_neg n1, if_neg n2, if_neg n3, if_neg n4, if_neg n5,
      if_neg n6, if_neg n7, if_neg n8, unknownErrorMsg, escapeDebug_plain _ h2]
  · have h := hasSegment_append ("Unknown error type: ".toList ++ ['"'])
      st.message ['"']
    have e : ("Unknown error type: ".toList ++ ['"']) ++ (st.message ++ ['"'])
        = "Unknown error type: ".toList ++ '"' :: st.message ++ ['"'] := by
      simp
    rw [e] at h
    exact h

/-- C4 witness: decoding the raw string `weird unlabeled failure` (no tag,
all plain characters) yields the `Internal` fallback containing it. -/
theorem claim4_witness :
    statusToError ⟨.internal, "weird unlabeled failure".toList⟩ =
      .Internal ("Unknown error type: ".toList ++
        '"' :: "weird unlabeled failure".toList ++ ['"']) ∧
    hasSegment "weird unlabeled failure".toList
      ("Unknown error type: ".toList ++
        '"' :: "weird unlabeled failure".toList ++ ['"']) = true :=
  claim4_fallback_total ⟨.internal, "weird unlabeled failure".toList⟩
    (by decide) (by decide)

/-- C4 counterexample: the message `a"b` starts with no recognized tag, yet
the fallback detail debug-escapes the quote, so the original raw message is
not contained in the detail verbatim. -/
theorem claim4_counterexample :
    recognizedTag ((splitOnChar ' ' "a\"b".toList).headI) = false ∧
    statusToError ⟨.internal, "a\"b".toList⟩ =
      .Internal "Unknown error type: \"a\\\"b\"".toList ∧
    hasSegment "a\"b".toList "Unknown error type: \"a\\\"b\"".toList = false := by
  decide

/-- C5: the encoded message is the bracketed tag of the kind, a single
space, then the associated string for the string-carrying kinds and the
fixed default phrase for the string-less kinds. -/
theorem claim5_encode_format (s1 s2 s3 s4 : Str) :
    (errorToStatus (.Config s1)).message = "[Config]".toList ++ ' ' :: s1 ∧
    (errorToStatus (.Internal s2)).message = "[Internal]".toList ++ ' ' :: s2 ∧
    (errorToStatus (.Parse s3)).message = "[Parse]".toList ++ ' ' :: s3 ∧
    (errorToStatus (.Value s4)).message = "[Value]".toList ++ ' ' :: s4 ∧
    (errorToStatus .Abort).message =
      "[Abort]".toList ++ ' ' :: "Operation aborted".toList ∧
    (errorToStatus .ReadOnly).message =
      "[ReadOnly]".toList ++ ' ' :: "Read-only transaction".toList ∧
    (errorToStatus .Serialization).message =
      "[Serialization]".toList ++ ' ' :: "Serialization failure, retry transaction".toList ∧
    (errorToStatus .NotLeader).message =
      "[NotLeader]".toList ++ ' ' :: "Not leader".toList :=
  ⟨rfl, rfl, rfl, rfl, rfl, rfl, rfl, rfl⟩

/-- C6 (amended): a message whose first single-space-separated chunk is a
string-less tag decodes to that kind whatever text follows the space, and
the bare tag alone also decodes to that kind; the decoder splits on the
space character only, so other whitespace does not separate the tag. -/
theorem claim6_stringless_decode (code : StatusCode) (s : Str) :
    statusToError ⟨code, "[Abort]".toList ++ ' ' :: s⟩ = .Abort ∧
    statusToError ⟨code, "[ReadOnly]".toList ++ ' ' :: s⟩ = .ReadOnly ∧
    statusToError ⟨code, "[Serialization]".toList ++ ' ' :: s⟩ = .Serialization ∧
    statusToError ⟨code, "[NotLeader]".toList ++ ' ' :: s⟩ = .NotLeader ∧
    statusToError ⟨code, "[Abort]".toList⟩ = .Abort ∧
    statusToError ⟨code, "[ReadOnly]".toList⟩ = .ReadOnly ∧
    statusToError ⟨code, "[Serialization]".toList⟩ = .Serialization ∧
    statusToError ⟨code, "[NotLeader]".toList⟩ = .NotLeader :=
  ⟨decode_abort_cons code s, decode_readonly_cons code s,
   decode_serialization_cons code s, decode_notleader_cons code s,
   rfl, rfl, rfl, rfl⟩

/-- C6 counterexample: in the message `[Abort]<tab>x` the first
whitespace-separated token is `[Abort]`, but the decoder splits on the
space character only, so it does not return `Abort` — it falls back to the
`Internal` unknown-error arm. -/
theorem claim6_counterexample :
    (wsTokens "[Abort]\tx".toList).headI = "[Abort]".toList ∧
    statusToError ⟨.internal, "[Abort]\tx".toList⟩ =
      .Internal "Unknown error type: \"[Abort]\\tx\"".toList ∧
    statusToError ⟨.internal, "[Abort]\tx".toList⟩ ≠ .Abort := by
  decide

/-- C7 (amended): a message that is a string-carrying tag, one space, and a
remainder decodes to that kind with the remainder, exactly as sent: the
decoder splits on single spaces and keeps the empty chunks, so rejoining
reproduces the remainder and runs of spaces are preserved, not collapsed. -/
theorem claim7_stringful_decode (code : StatusCode) (s : Str) :
    statusToError ⟨code, "[Config]".toList ++ ' ' :: s⟩ = .Config s ∧
    statusToError ⟨code, "[Internal]".toList ++ ' ' :: s⟩ = .Internal s ∧
    statusToError ⟨code, "[Parse]".toList ++ ' ' :: s⟩ = .Parse s ∧
    statusToError ⟨code, "[Value]".toList ++ ' ' :: s⟩ = .Value s :=
  ⟨decode_config_cons code s, decode_internal_cons code s,
   decode_parse_cons code s, decode_value_cons code s⟩

/-- C7 counterexample: decoding `[Config] a  b` (two spaces between `a` and
`b`) yields `Config "a  b"` with the double space preserved, not the
whitespace-token rejoin `a b` with the run collapsed that the claim
predicts. -/
theorem claim7_counterexample :
    statusToError ⟨.internal, "[Config] a  b".toList⟩ = .Config "a  b".toList ∧
    joinChar ' ' (wsTokens "[Config] a  b".toList).tail = "a b".toList ∧
    statusToError ⟨.internal, "[Config] a  b".toList⟩ ≠ .Config "a b".toList := by
  decide

/-- C8: the transport status code never discriminates kinds: every encoded
error carries the same generic `internal` failure code. -/
theorem claim8_single_code (e1 e2 : Error) :
    (errorToStatus e1).code = StatusCode.internal ∧
    (errorToStatus e1).code = (errorToStatus e2).code := by
  cases e1 <;> cases e2 <;> exact ⟨rfl, rfl⟩

/-- C9: encoding agrees with `Display`: the transport message is the
bracketed tag, a single space, then exactly the `Display` rendering of the
error. -/
theorem claim9_encode_display (e : Error) :
    (errorToStatus e).message = e.tag ++ ' ' :: e.display := by
  cases e <;> rfl

/-- C10: a message that is exactly a string-carrying bracketed tag with
nothing after it decodes to that kind with the empty associated string, not
to the `Internal` fallback. -/
theorem claim10_bare_tag :
    statusToError ⟨.internal, "[Config]".toList⟩ = .Config [] ∧
    statusToError ⟨.internal, "[Internal]".toList⟩ = .Internal [] ∧
    statusToError ⟨.internal, "[Parse]".toList⟩ = .Parse [] ∧
    statusToError ⟨.internal, "[Value]".toList⟩ = .Value [] := by
  decide

end Feather
